import Mathlib

/-!
Verification development for the TOML-like tokenizer of this repository
(`src/parsers/toml/tokens.rs`).  The tokenizer is embedded shallowly:

* the source text is a `List Char`; byte offsets are computed with an
  explicit UTF-8 size function, mirroring Rust's `str::CharIndices`,
  which yields `(byte_offset, char)` pairs;
* the mutable `Tokenizer { src, chars }` becomes a structure holding the
  fixed source and the list of remaining `(offset, char)` pairs; every
  method that mutates `self.chars` is a function returning the updated
  list (the `src` field is never written by the Rust code);
* the one unbounded loop (`read_string`'s `'outer: loop`) is given a
  fuel parameter; the entry point passes `chars.length + 1` fuel, which
  always suffices because each iteration of the Rust loop begins with
  `get_next_char` and therefore consumes at least one character.

All definitions are computable, so concrete runs are settled by `decide`.
-/

deriving instance DecidableEq for Except

namespace Toml

/-- UTF-8 byte length of one character, as Rust's `char::len_utf8`. -/
def utf8Len (c : Char) : Nat :=
  if c.toNat < 0x80 then 1
  else if c.toNat < 0x800 then 2
  else if c.toNat < 0x10000 then 3
  else 4

/-- UTF-8 encoding of one character, as a list of byte values. -/
def utf8EncodeNat (c : Char) : List Nat :=
  let v := c.toNat
  if v < 0x80 then [v]
  else if v < 0x800 then [0xC0 + v / 64, 0x80 + v % 64]
  else if v < 0x10000 then [0xE0 + v / 4096, 0x80 + v / 64 % 64, 0x80 + v % 64]
  else [0xF0 + v / 262144, 0x80 + v / 4096 % 64, 0x80 + v / 64 % 64, 0x80 + v % 64]

/-- Total byte length of a source text, Rust's `str::len`. -/
def byteLen (src : List Char) : Nat := (src.map utf8Len).sum

/-- The byte sequence of a source text, Rust's `str::as_bytes`. -/
def srcBytes (src : List Char) : List Nat := (src.map utf8EncodeNat).flatten

/-- The byte at a given byte offset, Rust's `src.as_bytes()[i]`. -/
def byteAt (src : List Char) (i : Nat) : Nat := (srcBytes src).getD i 0

/-- The `(byte_offset, char)` stream starting at offset `i`,
Rust's `str::char_indices`. -/
def charIndices (i : Nat) : List Char → List (Nat × Char)
  | [] => []
  | c :: cs => (i, c) :: charIndices (i + utf8Len c) cs

/-- The characters of `src` whose byte offset lies in `[a, b)`,
Rust's byte-offset slice `&src[a..b]` (offsets are always char
boundaries at every use site). -/
def sliceBytes (src : List Char) (a b : Nat) : List Char :=
  ((charIndices 0 src).filter fun p => decide (a ≤ p.1) && decide (p.1 < b)).map Prod.snd

/-- Rust's prefix slice `&src[..b]`. -/
def sliceTo (src : List Char) (b : Nat) : List Char :=
  ((charIndices 0 src).filter fun p => decide (p.1 < b)).map Prod.snd

/-- Rust's suffix slice `&src[a..]`. -/
def sliceFrom (src : List Char) (a : Nat) : List Char :=
  ((charIndices 0 src).filter fun p => decide (a ≤ p.1)).map Prod.snd

/-- Byte offset of the next unconsumed character, or the source byte
length when none remains; `Tokenizer::current` (tokens.rs:139). -/
def current (src : List Char) (chars : List (Nat × Char)) : Nat :=
  match chars with
  | (i, _) :: _ => i
  | [] => byteLen src

/-- Half-open byte-offset span of a token (tokens.rs:7).  `stop` is the
Rust field `end`, which is a reserved word in Lean. -/
structure Span where
  start : Nat
  stop : Nat
deriving DecidableEq, Repr

/-- Rust's `Cow<'a, str>`: a decoded string value that is either a
borrowed slice of the source or an owned buffer. -/
inductive Cow where
  | borrowed (s : List Char)
  | owned (s : List Char)
deriving DecidableEq, Repr

/-- The characters of a decoded value, whichever form it is in. -/
def Cow.chars : Cow → List Char
  | .borrowed s => s
  | .owned s => s

/-- The two-state decoded-value buffer (tokens.rs:18). -/
inductive MaybeString where
  | NotEscaped (start : Nat)
  | Owned (s : List Char)
deriving DecidableEq, Repr

/-- `MaybeString::push` (tokens.rs:355): appending to an unmaterialized
buffer is a no-op (the slice bounds cover it); appending to an owned
buffer extends it. -/
def MaybeString.push : MaybeString → Char → MaybeString
  | .NotEscaped s, _ => .NotEscaped s
  | .Owned s, c => .Owned (s ++ [c])

/-- `MaybeString::owned` (tokens.rs:362): materialize the buffer from
the slice `src[start..]`; `src` is the prefix slice `&self.src[..i]`
passed by the callers. -/
def MaybeString.owned : MaybeString → List Char → MaybeString
  | .NotEscaped start, src => .Owned (sliceFrom src start)
  | .Owned s, _ => .Owned s

/-- `MaybeString::into_cow` (tokens.rs:369). -/
def MaybeString.intoCow : MaybeString → List Char → Cow
  | .NotEscaped start, src => .borrowed (sliceFrom src start)
  | .Owned s, _ => .owned s

/-- The token type (tokens.rs:24). -/
inductive Token where
  | whiteSpace (s : List Char)
  | newLine
  | comment (s : List Char)
  | equals
  | period
  | comma
  | colon
  | plus
  | leftBrace
  | rightBrace
  | leftBracket
  | rightBracket
  | keylike (s : List Char)
  | string (src : List Char) (value : Cow) (multiline : Bool)
deriving DecidableEq, Repr

/-- The error type (tokens.rs:48).  `at_` is the Rust field `at`, a
reserved word in Lean; the `&'static str` fields become `List Char`. -/
inductive Error where
  | InvalidCharInString (i : Nat) (c : Char)
  | InvalidEscape (i : Nat) (c : Char)
  | InvalidHexEscape (i : Nat) (c : Char)
  | InvalidEscapeValue (i : Nat) (v : Nat)
  | NewlineInString (i : Nat)
  | Unexpected (i : Nat) (c : Char)
  | UnterminatedString (i : Nat)
  | NewlineInTableKey (i : Nat)
  | MultilineStringKey (i : Nat)
  | Wanted (at_ : Nat) (expected found : List Char)
deriving DecidableEq, Repr

/-- The tokenizer state (tokens.rs:66): the borrowed source plus the
remaining `CharIndices` stream. -/
structure Tokenizer where
  src : List Char
  chars : List (Nat × Char)
deriving DecidableEq, Repr

/-- `is_keylike` (tokens.rs:72). -/
def is_keylike (ch : Char) : Bool :=
  ('A' ≤ ch && ch ≤ 'Z') || ('a' ≤ ch && ch ≤ 'z') || ('0' ≤ ch && ch ≤ '9')
    || ch == '-' || ch == '_'

/-- `Tokenizer::eat` (tokens.rs:129): consume the next character only if
it equals the target; returns whether it did, plus the updated stream. -/
def eat (target : Char) (chars : List (Nat × Char)) : Bool × List (Nat × Char) :=
  match chars with
  | (_, c) :: rest => if c = target then (true, rest) else (false, chars)
  | [] => (false, chars)

/-- The loop of `Tokenizer::whitespace` (tokens.rs:290):
`while self.eat(' ') || self.eat('\t') {}`. -/
def whitespaceLoop : List (Nat × Char) → List (Nat × Char)
  | [] => []
  | (k, x) :: rest => if x = ' ' ∨ x = '\t' then whitespaceLoop rest else (k, x) :: rest

/-- `Tokenizer::whitespace` (tokens.rs:289), entered after the first
space or tab has been consumed. -/
def whitespace (src : List Char) (chars : List (Nat × Char)) (start : Nat) :
    Token × List (Nat × Char) :=
  let chars' := whitespaceLoop chars
  (.whiteSpace (sliceBytes src start (current src chars')), chars')

/-- The loop of `Tokenizer::comment` (tokens.rs:297): stop at the first
character that is not a tab and lies outside `U+0020..U+10FFFF`. -/
def commentLoop : List (Nat × Char) → List (Nat × Char)
  | [] => []
  | (i, ch) :: rest =>
    if ch ≠ '\t' ∧ (ch.toNat < 0x20 ∨ ch.toNat > 0x10FFFF) then (i, ch) :: rest
    else commentLoop rest

/-- `Tokenizer::comment` (tokens.rs:296), entered after `#`. -/
def comment (src : List Char) (chars : List (Nat × Char)) (start : Nat) :
    Token × List (Nat × Char) :=
  let chars' := commentLoop chars
  (.comment (sliceBytes src start (current src chars')), chars')

/-- The loop of `Tokenizer::keylike` (tokens.rs:148). -/
def keylikeLoop : List (Nat × Char) → List (Nat × Char)
  | [] => []
  | (i, ch) :: rest => if is_keylike ch then keylikeLoop rest else (i, ch) :: rest

/-- `Tokenizer::keylike` (tokens.rs:147), entered after its first
character has been consumed. -/
def keylike (src : List Char) (chars : List (Nat × Char)) (start : Nat) :
    Token × List (Nat × Char) :=
  let chars' := keylikeLoop chars
  (.keylike (sliceBytes src start (current src chars')), chars')

/-- Rust's `char::to_digit(16)`. -/
def toDigit16 (c : Char) : Option Nat :=
  if '0' ≤ c ∧ c ≤ '9' then some (c.toNat - '0'.toNat)
  else if 'a' ≤ c ∧ c ≤ 'f' then some (c.toNat - 'a'.toNat + 10)
  else if 'A' ≤ c ∧ c ≤ 'F' then some (c.toNat - 'A'.toNat + 10)
  else none

/-- Rust's `char::is_digit(16)`. -/
def isHexDigit (c : Char) : Bool := (toDigit16 c).isSome

/-- The guard of the first match arm of `Tokenizer::hex` (tokens.rs:325):
`ch as u32 <= 0x7F && ch.is_digit(16)`. -/
def hexDigitOk (c : Char) : Bool := decide (c.toNat ≤ 0x7F) && isHexDigit c

/-- Rust's `u32::from_str_radix(&buf, 16)` on a buffer of valid hex
digits (at most 8, so the `u32` never overflows). -/
def hexVal (buf : List Char) : Nat :=
  buf.foldl (fun a c => a * 16 + (toDigit16 c).getD 0) 0

/-- Validity test of Rust's `char::from_u32`: not a surrogate, and at
most `U+10FFFF`. -/
def isValidScalar (v : Nat) : Bool :=
  decide (v < 0xD800) || (decide (0xDFFF < v) && decide (v < 0x110000))

/-- The digit-reading loop of `Tokenizer::hex` (tokens.rs:323),
accumulating the digit buffer. -/
def hexLoop (start : Nat) : Nat → List Char → List (Nat × Char) →
    Except Error (List Char × List (Nat × Char))
  | 0, buf, chars => .ok (buf, chars)
  | len + 1, buf, chars =>
    match chars with
    | (j, ch) :: rest =>
      if hexDigitOk ch then hexLoop start len (buf ++ [ch]) rest
      else .error (.InvalidHexEscape j ch)
    | [] => .error (.UnterminatedString start)

/-- `Tokenizer::hex` (tokens.rs:321).  `start` is the string's opening
offset; `i` is the offset the caller passes (the offset of the `u`/`U`
character, see tokens.rs:247). -/
def hex (chars : List (Nat × Char)) (start i len : Nat) :
    Except Error (Char × List (Nat × Char)) :=
  match hexLoop start len [] chars with
  | .error e => .error e
  | .ok (buf, rest) =>
    let v := hexVal buf
    if isValidScalar v then .ok (Char.ofNat v, rest)
    else .error (.InvalidEscapeValue i v)

/-- The first whitespace-skipping loop of the line-continuation escape
(tokens.rs:253): skip spaces and tabs up to and including the first
newline; any other character is `InvalidEscape(i, c)` with `i`, `c`
the first whitespace character that followed the backslash. -/
def contSkip1 (i : Nat) (c : Char) : List (Nat × Char) →
    Except Error (List (Nat × Char))
  | [] => .ok []
  | (_, x) :: rest =>
    if x = ' ' ∨ x = '\t' then contSkip1 i c rest
    else if x = '\n' then .ok rest
    else .error (.InvalidEscape i c)

/-- The second whitespace-skipping loop of the line-continuation escape
(tokens.rs:267): skip all further spaces, tabs and newlines. -/
def contSkip2 : List (Nat × Char) → List (Nat × Char)
  | [] => []
  | (k, x) :: rest =>
    if x = ' ' ∨ x = '\t' ∨ x = '\n' then contSkip2 rest else (k, x) :: rest

/-- The closure of `Tokenizer::basic_string` (tokens.rs:236): handle one
ordinary body character `ch` at offset `i`, with the chars after it in
`chars`; `start` is the captured opening offset of the string. -/
def basicNewCh (start : Nat) (multi : Bool) (i : Nat) (ch : Char) (src : List Char)
    (val : MaybeString) (chars : List (Nat × Char)) :
    Except Error (MaybeString × List (Nat × Char)) :=
  if ch = '\\' then
    let val := val.owned (sliceTo src i)
    match chars with
    | (i2, c2) :: rest =>
      if c2 = '"' then .ok (val.push '"', rest)
      else if c2 = '\\' then .ok (val.push '\\', rest)
      else if c2 = 'b' then .ok (val.push (Char.ofNat 0x8), rest)
      else if c2 = 'f' then .ok (val.push (Char.ofNat 0xC), rest)
      else if c2 = 'n' then .ok (val.push '\n', rest)
      else if c2 = 'r' then .ok (val.push '\r', rest)
      else if c2 = 't' then .ok (val.push '\t', rest)
      else if c2 = 'u' ∨ c2 = 'U' then
        let len := if c2 = 'u' then 4 else 8
        match hex rest start i2 len with
        | .ok (c, rest') => .ok (val.push c, rest')
        | .error e => .error e
      else if (c2 = ' ' ∨ c2 = '\t' ∨ c2 = '\n') ∧ multi then
        if c2 ≠ '\n' then
          match contSkip1 i2 c2 rest with
          | .ok rest' => .ok (val, contSkip2 rest')
          | .error e => .error e
        else .ok (val, contSkip2 rest)
      else .error (.InvalidEscape i2 c2)
    | [] => .error (.UnterminatedString start)
  else if ch = '\t' ∨ (0x20 ≤ ch.toNat ∧ ch.toNat ≤ 0x10FFFF ∧ ch.toNat ≠ 0x7F) then
    .ok (val.push ch, chars)
  else .error (.InvalidCharInString i ch)

/-- The closure of `Tokenizer::literal_string` (tokens.rs:310). -/
def literalNewCh (i : Nat) (ch : Char) (val : MaybeString)
    (chars : List (Nat × Char)) : Except Error (MaybeString × List (Nat × Char)) :=
  if ch = '\t' ∨ (0x20 ≤ ch.toNat ∧ ch.toNat ≤ 0x10FFFF ∧ ch.toNat ≠ 0x7F) then
    .ok (val.push ch, chars)
  else .error (.InvalidCharInString i ch)

/-- The two escape policies passed to `read_string` as `new_ch`
closures: the one built in `basic_string` and the one built in
`literal_string`. -/
inductive Policy where
  | basic
  | literal
deriving DecidableEq, Repr

/-- Apply a policy's `new_ch` closure. -/
def Policy.newCh : Policy → Nat → Bool → Nat → Char → List Char → MaybeString →
    List (Nat × Char) → Except Error (MaybeString × List (Nat × Char))
  | .basic, start, multi, i, ch, src, val, chars => basicNewCh start multi i ch src val chars
  | .literal, _, _, i, ch, _, val, chars => literalNewCh i ch val chars

/-- The `'outer: loop` of `Tokenizer::read_string` (tokens.rs:185).
`n0` is the iteration counter before the `n += 1` at the top of the
loop body.  The fuel argument only bounds the iteration count; the
entry point passes `chars.length + 1`, which cannot run out because
every iteration consumes at least the character taken by
`get_next_char`.  (The fuel-exhausted value mirrors the end-of-input
answer and is unreachable.) -/
def readStringLoop (src : List Char) (p : Policy) (delim : Char) (start : Nat)
    (multiline : Bool) : Nat → MaybeString → Nat → List (Nat × Char) →
    Except Error (Token × List (Nat × Char))
  | 0, _, _, _ => .error (.UnterminatedString start)
  | fuel + 1, val, n0, chars =>
    let n := n0 + 1
    match chars with
    | [] => .error (.UnterminatedString start)
    | (i, c) :: rest =>
      if c = '\n' then
        if multiline then
          let val1 := if byteAt src i = 0x0D then val.owned (sliceTo src i) else val
          if n = 1 then
            readStringLoop src p delim start multiline fuel
              (.NotEscaped (current src rest)) n rest
          else
            readStringLoop src p delim start multiline fuel (val1.push '\n') n rest
        else .error (.NewlineInString i)
      else if c = delim then
        if multiline then
          let e1 := eat delim rest
          if e1.1 = false then
            readStringLoop src p delim start multiline fuel (val.push delim) n e1.2
          else
            let e2 := eat delim e1.2
            if e2.1 = false then
              readStringLoop src p delim start multiline fuel
                ((val.push delim).push delim) n e2.2
            else
              let e3 := eat delim e2.2
              let i3 := if e3.1 then i + 1 else i
              let v3 := if e3.1 then val.push delim else val
              let e4 := eat delim e3.2
              let i4 := if e4.1 then i3 + 1 else i3
              let v4 := if e4.1 then v3.push delim else v3
              .ok (.string (sliceBytes src start (current src e4.2))
                    (v4.intoCow (sliceTo src i4)) multiline, e4.2)
        else
          .ok (.string (sliceBytes src start (current src rest))
                (val.intoCow (sliceTo src i)) multiline, rest)
      else
        match p.newCh start multiline i c src val rest with
        | .error e => .error e
        | .ok (val', chars') =>
          readStringLoop src p delim start multiline fuel val' n chars'

/-- `Tokenizer::read_string` (tokens.rs:157): delimiter counting at the
opening, then the scanning loop. -/
def read_string (src : List Char) (chars : List (Nat × Char)) (delim : Char)
    (start : Nat) (p : Policy) : Except Error (Token × List (Nat × Char)) :=
  let e1 := eat delim chars
  if e1.1 then
    let e2 := eat delim e1.2
    if e2.1 then
      readStringLoop src p delim start true (e2.2.length + 1)
        (.NotEscaped (current src e2.2)) 0 e2.2
    else
      .ok (.string (sliceBytes src start (current src e1.2)) (.borrowed []) false, e1.2)
  else
    readStringLoop src p delim start false (e1.2.length + 1)
      (.NotEscaped (current src e1.2)) 0 e1.2

/-- `Tokenizer::basic_string` (tokens.rs:235). -/
def basic_string (src : List Char) (chars : List (Nat × Char)) (start : Nat) :
    Except Error (Token × List (Nat × Char)) :=
  read_string src chars '"' start .basic

/-- `Tokenizer::literal_string` (tokens.rs:306). -/
def literal_string (src : List Char) (chars : List (Nat × Char)) (start : Nat) :
    Except Error (Token × List (Nat × Char)) :=
  read_string src chars '\'' start .literal

/-- `Tokenizer::calculate_span` (tokens.rs:337): from the token's start
offset to the offset of the next unconsumed character (or the source
length at end of input). -/
def calculate_span (src : List Char) (chars : List (Nat × Char)) (start : Nat) : Span :=
  ⟨start, current src chars⟩

/-- `Tokenizer::new` (tokens.rs:81): full `char_indices` stream, then a
single optional byte-order mark is eaten. -/
def Tokenizer.new (src : List Char) : Tokenizer :=
  ⟨src, (eat (Char.ofNat 0xFEFF) (charIndices 0 src)).2⟩

/-- The classification match of `Tokenizer::tokenize` (tokens.rs:92):
given the consumed character `c` at offset `start` and the remaining
stream `rest`, produce the token and the stream after the sub-scan.
(In the Rust code every arm pairs its token with the same `start`, and
the span is then computed uniformly by `calculate_span(start)`, either
after the match or inside the string arms' `map`; the split into this
dispatcher plus the span assembly in `tokenize` mirrors that.) -/
def dispatch (src : List Char) (start : Nat) (c : Char) (rest : List (Nat × Char)) :
    Except Error (Token × List (Nat × Char)) :=
  if c = ' ' ∨ c = '\t' then .ok (whitespace src rest start)
  else if c = '\n' then .ok (.newLine, rest)
  else if c = '#' then .ok (comment src rest start)
  else if c = '=' then .ok (.equals, rest)
  else if c = '.' then .ok (.period, rest)
  else if c = ',' then .ok (.comma, rest)
  else if c = ':' then .ok (.colon, rest)
  else if c = '+' then .ok (.plus, rest)
  else if c = '{' then .ok (.leftBrace, rest)
  else if c = '}' then .ok (.rightBrace, rest)
  else if c = '[' then .ok (.leftBracket, rest)
  else if c = ']' then .ok (.rightBracket, rest)
  else if c = '\'' then literal_string src rest start
  else if c = '"' then basic_string src rest start
  else if is_keylike c then .ok (keylike src rest start)
  else .error (.Unexpected start c)

/-- `Tokenizer::tokenize` (tokens.rs:91): classify the next character
and produce one token together with its span, or an error; `none` at
end of input.  The returned `Tokenizer` is the updated state. -/
def Tokenizer.tokenize (t : Tokenizer) : Except Error (Option (Span × Token × Tokenizer)) :=
  match t.chars with
  | [] => .ok none
  | (start, c) :: rest =>
    match dispatch t.src start c rest with
    | .error e => .error e
    | .ok (tok, chars') =>
      .ok (some (calculate_span t.src chars' start, tok, ⟨t.src, chars'⟩))

/-- How a full drain of the tokenizer ended. -/
inductive DrainEnd where
  | finished
  | failed (e : Error)
  | gaveUp
deriving DecidableEq, Repr

/-- Repeatedly call `tokenize`, collecting the produced `(span, token)`
pairs, until end of input (`finished`), an error (`failed`), or the
step budget runs out (`gaveUp`; never happens for a budget larger than
the number of remaining characters, since every produced token consumes
at least one character). -/
def drain : Nat → Tokenizer → List (Span × Token) × DrainEnd
  | 0, _ => ([], .gaveUp)
  | fuel + 1, t =>
    match t.tokenize with
    | .error e => ([], .failed e)
    | .ok none => ([], .finished)
    | .ok (some (sp, tok, t')) =>
      let r := drain fuel t'
      ((sp, tok) :: r.1, r.2)

/-- The spans `l`, in order, tile the byte range `[a, b)` exactly:
each starts where the previous one stopped, the first starts at `a`,
and the last stops at `b`. -/
def spansChain (a b : Nat) : List Span → Prop
  | [] => a = b
  | sp :: rest => sp.start = a ∧ spansChain sp.stop b rest

/-- Byte length of the byte-order mark consumed by `Tokenizer::new`:
3 when the source starts with `U+FEFF`, else 0. -/
def bomLen (src : List Char) : Nat :=
  if src.head? = some (Char.ofNat 0xFEFF) then 3 else 0

/-! ## Concrete test inputs -/

/-- A multi-line basic string whose body contains a CRLF pair:
the text between triple quotes is `a`, carriage return, line feed, `b`. -/
def srcCrlf : List Char := ['"', '"', '"', 'a', '\r', '\n', 'b', '"', '"', '"']

/-- Opening triple quote, an immediate newline, `hello`, closing triple
quote. -/
def srcHello : List Char := ['"', '"', '"', '\n', 'h', 'e', 'l', 'l', 'o', '"', '"', '"']

/-- A multi-line basic string with an embedded single delimiter inside
the body and two extra delimiters right before the closing triple:
the decoded value should be `a"b""`. -/
def srcRuns : List Char := ['"', '"', '"', 'a', '"', 'b', '"', '"', '"', '"', '"']

/-- The basic string whose body is the escape `A`. -/
def srcU41 : List Char := ['"', '\\', 'u', '0', '0', '4', '1', '"']

/-- The basic string whose body is the malformed escape `\uZZZZ`. -/
def srcUZ : List Char := ['"', '\\', 'u', 'Z', 'Z', 'Z', 'Z', '"']

/-- The basic string whose body is the escape `\uD800`, four valid hex
digits denoting a surrogate (not a Unicode scalar value). -/
def srcUD800 : List Char := ['"', '\\', 'u', 'D', '8', '0', '0', '"']

/-- The input `"abc` with no closing quote. -/
def srcUnterm : List Char := ['"', 'a', 'b', 'c']

/-- A byte-order mark followed by the identifier `a`. -/
def srcBom : List Char := [Char.ofNat 0xFEFF, 'a']

instance spansChainDec : (l : List Span) → (a b : Nat) → Decidable (spansChain a b l)
  | [], a, b => inferInstanceAs (Decidable (a = b))
  | sp :: rest, a, b =>
    have := spansChainDec rest sp.stop b
    inferInstanceAs (Decidable (sp.start = a ∧ spansChain sp.stop b rest))

/-! ## Span bookkeeping lemmas -/

theorem tokenize_none {t : Tokenizer} (h : t.tokenize = .ok none) : t.chars = [] := by
  obtain ⟨src, chars⟩ := t
  match chars with
  | [] => rfl
  | (s, c) :: rest =>
    unfold Tokenizer.tokenize at h
    dsimp only at h
    cases hd : dispatch src s c rest with
    | error e => rw [hd] at h; exact Except.noConfusion h
    | ok r => obtain ⟨tok, chars'⟩ := r; rw [hd] at h; simp at h

theorem tokenize_some_span {t : Tokenizer} {sp : Span} {tok : Token} {t' : Tokenizer}
    (h : t.tokenize = .ok (some (sp, tok, t'))) :
    sp.start = current t.src t.chars ∧ sp.stop = current t'.src t'.chars ∧ t'.src = t.src := by
  obtain ⟨src, chars⟩ := t
  match chars with
  | [] => simp [Tokenizer.tokenize] at h
  | (start, c) :: rest =>
    unfold Tokenizer.tokenize at h
    dsimp only at h
    cases hd : dispatch src start c rest with
    | error e => rw [hd] at h; exact Except.noConfusion h
    | ok r =>
      obtain ⟨tokr, chars'⟩ := r
      rw [hd] at h
      simp only [Except.ok.injEq, Option.some.injEq, Prod.mk.injEq] at h
      obtain ⟨h1, h2, h3⟩ := h
      subst h1
      subst h3
      exact ⟨rfl, rfl, rfl⟩

theorem drain_spansChain : ∀ (fuel : Nat) (t : Tokenizer) (l : List (Span × Token)),
    drain fuel t = (l, .finished) →
    spansChain (current t.src t.chars) (byteLen t.src) (l.map Prod.fst)
  | 0, t, l, h => by simp [drain] at h
  | fuel + 1, t, l, h => by
    rw [drain] at h
    cases htok : t.tokenize with
    | error e => rw [htok] at h; simp at h
    | ok o =>
      cases o with
      | none =>
        rw [htok] at h
        obtain ⟨hl, -⟩ := Prod.mk.injEq .. ▸ h
        subst hl
        have hchars : t.chars = [] := tokenize_none htok
        simp [spansChain, hchars, current]
      | some x =>
        obtain ⟨sp, tok, t'⟩ := x
        rw [htok] at h
        simp only [Prod.mk.injEq] at h
        obtain ⟨hl, hend⟩ := h
        subst hl
        obtain ⟨hs1, hs2, hs3⟩ := tokenize_some_span htok
        have ih := drain_spansChain fuel t' (drain fuel t').1
          (by rw [← hend])
        rw [hs3] at ih hs2
        exact ⟨hs1, hs2 ▸ ih⟩

theorem new_src (src : List Char) : (Tokenizer.new src).src = src := rfl

theorem new_current (src : List Char) :
    current (Tokenizer.new src).src (Tokenizer.new src).chars = bomLen src := by
  match src with
  | [] => decide
  | c :: cs =>
    by_cases hb : c = Char.ofNat 0xFEFF
    · subst hb
      cases cs with
      | nil => decide
      | cons d ds =>
        have h3 : utf8Len (Char.ofNat 0xFEFF) = 3 := by decide
        simp [Tokenizer.new, charIndices, eat, current, bomLen, h3]
    · simp [Tokenizer.new, charIndices, eat, current, bomLen, hb]

theorem eat_yes (d : Char) (i : Nat) (rest : List (Nat × Char)) :
    eat d ((i, d) :: rest) = (true, rest) := by
  unfold eat
  dsimp only
  rw [if_pos rfl]

theorem eat_not {d : Char} {cs : List (Nat × Char)} (h : (eat d cs).1 = false) :
    eat d cs = (false, cs) := by
  match cs with
  | [] => rfl
  | (i, c) :: rest =>
    by_cases hc : c = d
    · exfalso
      have heat : eat d ((i, c) :: rest) = (true, rest) := by
        unfold eat
        dsimp only
        rw [if_pos hc]
      rw [heat] at h
      exact Bool.noConfusion h
    · unfold eat
      dsimp only
      rw [if_neg hc]

/-! ## Where `UnterminatedString` errors come from -/

theorem hexLoop_unterminated {start : Nat} : ∀ (len : Nat) (buf : List Char)
    (chars : List (Nat × Char)) {j : Nat},
    hexLoop start len buf chars = .error (.UnterminatedString j) → j = start := by
  intro len
  induction len with
  | zero =>
    intro buf chars j h
    exact Except.noConfusion h
  | succ n ih =>
    intro buf chars j h
    match chars with
    | [] =>
      injection h with h1
      injection h1 with h2
      exact h2.symm
    | (k, c) :: rest =>
      have h' : (if hexDigitOk c = true then hexLoop start n (buf ++ [c]) rest
          else .error (.InvalidHexEscape k c)) = .error (.UnterminatedString j) := h
      by_cases hd : hexDigitOk c = true
      · rw [if_pos hd] at h'
        exact ih _ _ h'
      · rw [if_neg hd] at h'
        injection h' with h1
        exact Error.noConfusion h1

theorem hex_unterminated {chars : List (Nat × Char)} {start i len j : Nat}
    (h : hex chars start i len = .error (.UnterminatedString j)) : j = start := by
  unfold hex at h
  split at h
  · injection h with h1
    subst h1
    exact hexLoop_unterminated _ _ _ (by assumption)
  · dsimp only at h
    split at h
    · exact Except.noConfusion h
    · injection h with h1
      exact Error.noConfusion h1

theorem contSkip1_error : ∀ {i : Nat} {c : Char} {chars : List (Nat × Char)} {e : Error},
    contSkip1 i c chars = .error e → e = .InvalidEscape i c := by
  intro i c chars
  induction chars with
  | nil =>
    intro e h
    exact Except.noConfusion h
  | cons hd tl ih =>
    obtain ⟨k, x⟩ := hd
    intro e h
    unfold contSkip1 at h
    split at h
    · exact ih h
    · split at h
      · exact Except.noConfusion h
      · injection h with h1
        exact h1.symm

theorem basicNewCh_unterminated {start : Nat} {multi : Bool} {i : Nat} {ch : Char}
    {src : List Char} {val : MaybeString} {chars : List (Nat × Char)} {j : Nat}
    (h : basicNewCh start multi i ch src val chars = .error (.UnterminatedString j)) :
    j = start := by
  unfold basicNewCh at h
  by_cases h1 : ch = '\\'
  · rw [if_pos h1] at h
    cases chars with
    | nil =>
      injection h with h0
      injection h0 with h0'
      exact h0'.symm
    | cons hd rest =>
      obtain ⟨i2, c2⟩ := hd
      dsimp only at h
      by_cases e1 : c2 = '"'
      · rw [if_pos e1] at h; exact Except.noConfusion h
      rw [if_neg e1] at h
      by_cases e2 : c2 = '\\'
      · rw [if_pos e2] at h; exact Except.noConfusion h
      rw [if_neg e2] at h
      by_cases e3 : c2 = 'b'
      · rw [if_pos e3] at h; exact Except.noConfusion h
      rw [if_neg e3] at h
      by_cases e4 : c2 = 'f'
      · rw [if_pos e4] at h; exact Except.noConfusion h
      rw [if_neg e4] at h
      by_cases e5 : c2 = 'n'
      · rw [if_pos e5] at h; exact Except.noConfusion h
      rw [if_neg e5] at h
      by_cases e6 : c2 = 'r'
      · rw [if_pos e6] at h; exact Except.noConfusion h
      rw [if_neg e6] at h
      by_cases e7 : c2 = 't'
      · rw [if_pos e7] at h; exact Except.noConfusion h
      rw [if_neg e7] at h
      by_cases e8 : c2 = 'u' ∨ c2 = 'U'
      · rw [if_pos e8] at h
        cases hhex : hex rest start i2 (if c2 = 'u' then 4 else 8) with
        | ok r =>
          rw [hhex] at h
          obtain ⟨cc, rr⟩ := r
          exact Except.noConfusion h
        | error e =>
          rw [hhex] at h
          injection h with h0
          subst h0
          exact hex_unterminated hhex
      rw [if_neg e8] at h
      by_cases e9 : (c2 = ' ' ∨ c2 = '\t' ∨ c2 = '\n') ∧ multi = true
      · rw [if_pos e9] at h
        by_cases e10 : c2 ≠ '\n'
        · rw [if_pos e10] at h
          cases hcs : contSkip1 i2 c2 rest with
          | ok rest' =>
            rw [hcs] at h
            exact Except.noConfusion h
          | error e =>
            rw [hcs] at h
            injection h with h0
            subst h0
            exact absurd (contSkip1_error hcs) (fun hx => Error.noConfusion hx)
        · rw [if_neg e10] at h
          exact Except.noConfusion h
      · rw [if_neg e9] at h
        injection h with h0
        exact Error.noConfusion h0
  · rw [if_neg h1] at h
    by_cases h2 : ch = '\t' ∨ 0x20 ≤ ch.toNat ∧ ch.toNat ≤ 0x10FFFF ∧ ch.toNat ≠ 0x7F
    · rw [if_pos h2] at h
      exact Except.noConfusion h
    · rw [if_neg h2] at h
      injection h with h0
      exact Error.noConfusion h0

theorem newCh_unterminated {p : Policy} {start : Nat} {multi : Bool} {i : Nat} {ch : Char}
    {src : List Char} {val : MaybeString} {chars : List (Nat × Char)} {j : Nat}
    (h : p.newCh start multi i ch src val chars = .error (.UnterminatedString j)) :
    j = start := by
  cases p with
  | basic => exact basicNewCh_unterminated h
  | literal =>
    have h' : literalNewCh i ch val chars = .error (.UnterminatedString j) := h
    unfold literalNewCh at h'
    split at h'
    · exact Except.noConfusion h'
    · injection h' with h1
      exact Error.noConfusion h1

theorem readStringLoop_unterminated {src : List Char} {p : Policy} {delim : Char}
    {start : Nat} {multi : Bool} : ∀ (fuel : Nat) (val : MaybeString) (n0 : Nat)
    (chars : List (Nat × Char)) {j : Nat},
    readStringLoop src p delim start multi fuel val n0 chars =
      .error (.UnterminatedString j) → j = start
  | 0, val, n0, chars, j, h => by
    injection h with h1
    injection h1 with h2
    exact h2.symm
  | fuel + 1, val, n0, chars, j, h => by
    simp only [readStringLoop] at h
    cases chars with
    | nil =>
      injection h with h1
      injection h1 with h2
      exact h2.symm
    | cons hd rest =>
      obtain ⟨i, c⟩ := hd
      dsimp only at h
      by_cases hc1 : c = '\n'
      · rw [if_pos hc1] at h
        by_cases hm : multi = true
        · rw [if_pos hm] at h
          by_cases hn : n0 + 1 = 1
          · rw [if_pos hn] at h
            exact readStringLoop_unterminated fuel _ _ _ h
          · rw [if_neg hn] at h
            exact readStringLoop_unterminated fuel _ _ _ h
        · rw [if_neg hm] at h
          injection h with h1
          exact Error.noConfusion h1
      rw [if_neg hc1] at h
      by_cases hc2 : c = delim
      · rw [if_pos hc2] at h
        by_cases hm : multi = true
        · rw [if_pos hm] at h
          by_cases he1 : (eat delim rest).1 = false
          · rw [if_pos he1] at h
            exact readStringLoop_unterminated fuel _ _ _ h
          rw [if_neg he1] at h
          by_cases he2 : (eat delim (eat delim rest).2).1 = false
          · rw [if_pos he2] at h
            exact readStringLoop_unterminated fuel _ _ _ h
          · rw [if_neg he2] at h
            exact Except.noConfusion h
        · rw [if_neg hm] at h
          exact Except.noConfusion h
      · rw [if_neg hc2] at h
        cases hnc : p.newCh start multi i c src val rest with
        | ok r =>
          rw [hnc] at h
          obtain ⟨val', chars'⟩ := r
          exact readStringLoop_unterminated fuel _ _ _ h
        | error e =>
          rw [hnc] at h
          injection h with h1
          subst h1
          exact newCh_unterminated hnc

theorem read_string_unterminated {src : List Char} {chars : List (Nat × Char)}
    {delim : Char} {start : Nat} {p : Policy} {j : Nat}
    (h : read_string src chars delim start p = .error (.UnterminatedString j)) : j = start := by
  unfold read_string at h
  dsimp only at h
  by_cases h1 : (eat delim chars).1 = true
  · rw [if_pos h1] at h
    by_cases h2 : (eat delim (eat delim chars).2).1 = true
    · rw [if_pos h2] at h
      exact readStringLoop_unterminated _ _ _ _ h
    · rw [if_neg h2] at h
      exact Except.noConfusion h
  · rw [if_neg h1] at h
    exact readStringLoop_unterminated _ _ _ _ h

theorem dispatch_unterminated {src : List Char} {start : Nat} {c : Char}
    {rest : List (Nat × Char)} {j : Nat}
    (h : dispatch src start c rest = .error (.UnterminatedString j)) :
    j = start ∧ (c = '"' ∨ c = '\'') := by
  unfold dispatch at h
  by_cases k1 : c = ' ' ∨ c = '\t'
  · rw [if_pos k1] at h; exact Except.noConfusion h
  rw [if_neg k1] at h
  by_cases k2 : c = '\n'
  · rw [if_pos k2] at h; exact Except.noConfusion h
  rw [if_neg k2] at h
  by_cases k3 : c = '#'
  · rw [if_pos k3] at h; exact Except.noConfusion h
  rw [if_neg k3] at h
  by_cases k4 : c = '='
  · rw [if_pos k4] at h; exact Except.noConfusion h
  rw [if_neg k4] at h
  by_cases k5 : c = '.'
  · rw [if_pos k5] at h; exact Except.noConfusion h
  rw [if_neg k5] at h
  by_cases k6 : c = ','
  · rw [if_pos k6] at h; exact Except.noConfusion h
  rw [if_neg k6] at h
  by_cases k7 : c = ':'
  · rw [if_pos k7] at h; exact Except.noConfusion h
  rw [if_neg k7] at h
  by_cases k8 : c = '+'
  · rw [if_pos k8] at h; exact Except.noConfusion h
  rw [if_neg k8] at h
  by_cases k9 : c = '{'
  · rw [if_pos k9] at h; exact Except.noConfusion h
  rw [if_neg k9] at h
  by_cases k10 : c = '}'
  · rw [if_pos k10] at h; exact Except.noConfusion h
  rw [if_neg k10] at h
  by_cases k11 : c = '['
  · rw [if_pos k11] at h; exact Except.noConfusion h
  rw [if_neg k11] at h
  by_cases k12 : c = ']'
  · rw [if_pos k12] at h; exact Except.noConfusion h
  rw [if_neg k12] at h
  by_cases k13 : c = '\''
  · rw [if_pos k13] at h
    exact ⟨read_string_unterminated h, .inr k13⟩
  rw [if_neg k13] at h
  by_cases k14 : c = '"'
  · rw [if_pos k14] at h
    exact ⟨read_string_unterminated h, .inl k14⟩
  rw [if_neg k14] at h
  by_cases k15 : is_keylike c = true
  · rw [if_pos k15] at h; exact Except.noConfusion h
  · rw [if_neg k15] at h
    injection h with h1
    exact Error.noConfusion h1

/-! ## Character admissibility, line continuation and hex escapes -/

theorem char_toNat_inj {a b : Char} (h : a.toNat = b.toNat) : a = b :=
  Char.ext (UInt32.ext h)

/-- The admissibility condition on ordinary string-body characters in
the words of the claim: tab (U+0009), or in U+0020..U+10FFFF excluding
U+007F.  Stated from the claim's wording, to be compared with the
condition the code checks (tokens.rs:281 and tokens.rs:311). -/
def specAllowedChar (ch : Char) : Prop :=
  ch.toNat = 0x09 ∨ (0x20 ≤ ch.toNat ∧ ch.toNat ≤ 0x10FFFF ∧ ch.toNat ≠ 0x7F)

instance (ch : Char) : Decidable (specAllowedChar ch) := by
  unfold specAllowedChar
  infer_instance

theorem specAllowedChar_iff (ch : Char) :
    (ch = '\t' ∨ 0x20 ≤ ch.toNat ∧ ch.toNat ≤ 0x10FFFF ∧ ch.toNat ≠ 0x7F) ↔
      specAllowedChar ch := by
  unfold specAllowedChar
  constructor
  · rintro (rfl | hx)
    · exact .inl rfl
    · exact .inr hx
  · rintro (h9 | hx)
    · exact .inl (char_toNat_inj (h9.trans (by decide)))
    · exact .inr hx

theorem contSkip1_ws_bad {i2 : Nat} {c : Char} : ∀ (ws : List (Nat × Char)) {j : Nat}
    {bad : Char} {rest : List (Nat × Char)},
    (∀ p ∈ ws, p.2 = ' ' ∨ p.2 = '\t') →
    ¬ (bad = ' ' ∨ bad = '\t') → bad ≠ '\n' →
    contSkip1 i2 c (ws ++ (j, bad) :: rest) = .error (.InvalidEscape i2 c)
  | [], j, bad, rest, hws, hb1, hb2 => by
    rw [List.nil_append]
    unfold contSkip1
    rw [if_neg hb1, if_neg hb2]
  | (k, x) :: tl, j, bad, rest, hws, hb1, hb2 => by
    have hx := hws (k, x) (List.mem_cons_self _ _)
    rw [List.cons_append]
    unfold contSkip1
    rw [if_pos hx]
    exact contSkip1_ws_bad tl (fun p hp => hws p (List.mem_cons_of_mem _ hp)) hb1 hb2

theorem contSkip1_ws_newline {i2 : Nat} {c : Char} : ∀ (ws : List (Nat × Char)) {j : Nat}
    {rest : List (Nat × Char)},
    (∀ p ∈ ws, p.2 = ' ' ∨ p.2 = '\t') →
    contSkip1 i2 c (ws ++ (j, '\n') :: rest) = .ok rest
  | [], j, rest, hws => by
    rw [List.nil_append]
    unfold contSkip1
    rw [if_neg (by decide), if_pos rfl]
  | (k, x) :: tl, j, rest, hws => by
    have hx := hws (k, x) (List.mem_cons_self _ _)
    rw [List.cons_append]
    unfold contSkip1
    rw [if_pos hx]
    exact contSkip1_ws_newline tl (fun p hp => hws p (List.mem_cons_of_mem _ hp))

theorem hexLoop_ok {start : Nat} : ∀ (ps rest : List (Nat × Char)) (buf : List Char),
    (∀ p ∈ ps, hexDigitOk p.2 = true) →
    hexLoop start ps.length buf (ps ++ rest) = .ok (buf ++ ps.map Prod.snd, rest)
  | [], rest, buf, hp => by simp [hexLoop]
  | (k, c) :: tl, rest, buf, hp => by
    have hc : hexDigitOk c = true := hp (k, c) (List.mem_cons_self _ _)
    rw [List.cons_append, List.length_cons]
    unfold hexLoop
    dsimp only
    rw [if_pos hc,
      hexLoop_ok tl rest (buf ++ [c]) (fun p hp2 => hp p (List.mem_cons_of_mem _ hp2))]
    simp

theorem hex_invalid_value {start i : Nat} (ps rest : List (Nat × Char))
    (hd : ∀ p ∈ ps, hexDigitOk p.2 = true)
    (hv : isValidScalar (hexVal (ps.map Prod.snd)) = false) :
    hex (ps ++ rest) start i ps.length =
      .error (.InvalidEscapeValue i (hexVal (ps.map Prod.snd))) := by
  unfold hex
  rw [hexLoop_ok ps rest [] hd]
  dsimp only
  rw [List.nil_append, if_neg (by simp [hv])]

/-! ## Claim theorems (concrete runs) -/

/-- C1: the claim says a CRLF pair in a multi-line string body is
normalized to a lone line feed and tokenization succeeds.  The code
instead rejects the carriage return as an invalid string character: the
normalization check at tokens.rs:190 reads the byte at the offset of
the `'\n'` character itself, which is `0x0A` and never `0x0D`, so it is
unreachable, and the preceding `'\r'` reaches the per-character closure
first, which refuses it.  This theorem evaluates the tokenizer at the
failing input `"""a<CR><LF>b"""`. -/
theorem crlf_in_multiline_rejected :
    (Tokenizer.new srcCrlf).tokenize = .error (.InvalidCharInString 4 '\r') := by
  decide

/-- C6: decoding the basic string `"A"` yields the decoded value
`A` (as an owned, materialized buffer), and decoding `"\uZZZZ"` yields
`InvalidHexEscape` carrying the offset (3) and character of the first
offending non-hex character `Z`. -/
theorem hex_escape_examples :
    (Tokenizer.new srcU41).tokenize =
      .ok (some (⟨0, 8⟩, .string srcU41 (.owned ['A']) false, ⟨srcU41, []⟩))
  ∧ (Tokenizer.new srcUZ).tokenize = .error (.InvalidHexEscape 3 'Z') := by
  decide

/-- C2, counterexample: on the input `U+FEFF a` the full drain succeeds
and produces the single span `[3, 4)`, which does not tile `[0, 4)`:
the three bytes of the consumed byte-order mark are covered by no span,
so the claim's range `[0, source.len())` is wrong for inputs starting
with a byte-order mark. -/
theorem bom_span_counterexample :
    drain 3 (Tokenizer.new srcBom) = ([(⟨3, 4⟩, .keylike ['a'])], .finished)
  ∧ ¬ spansChain 0 (byteLen srcBom) [⟨3, 4⟩] := by
  decide

/-- C4: in the body of a multi-line string, when the delimiter is met:
with no 2nd consecutive delimiter the matched delimiter becomes literal
content and scanning continues; with a 2nd but no 3rd, both become
literal content and scanning continues; after a closing triple, up to
two further consecutive delimiters each become literal content and the
close offset advances by one per extra delimiter (so the decoded value
may end with up to two embedded delimiter characters immediately before
the closing triple).  The final conjunct runs the tokenizer on the
input whose body is `a"b` followed by two extra delimiters before the
closing triple, decoding to exactly `a"b""`. -/
theorem multiline_delim_runs (src : List Char) (p : Policy) (delim : Char) (start : Nat)
    (val : MaybeString) (n0 fuel i : Nat) (rest : List (Nat × Char))
    (hnl : delim ≠ '\n') :
    ((eat delim rest).1 = false →
      readStringLoop src p delim start true (fuel + 1) val n0 ((i, delim) :: rest) =
        readStringLoop src p delim start true fuel (val.push delim) (n0 + 1) rest)
  ∧ (∀ j rest2, rest = (j, delim) :: rest2 → (eat delim rest2).1 = false →
      readStringLoop src p delim start true (fuel + 1) val n0 ((i, delim) :: rest) =
        readStringLoop src p delim start true fuel ((val.push delim).push delim) (n0 + 1) rest2)
  ∧ (∀ j k rest3, rest = (j, delim) :: (k, delim) :: rest3 → (eat delim rest3).1 = false →
      readStringLoop src p delim start true (fuel + 1) val n0 ((i, delim) :: rest) =
        .ok (.string (sliceBytes src start (current src rest3))
              (val.intoCow (sliceTo src i)) true, rest3))
  ∧ (∀ j k m rest4, rest = (j, delim) :: (k, delim) :: (m, delim) :: rest4 →
        (eat delim rest4).1 = false →
      readStringLoop src p delim start true (fuel + 1) val n0 ((i, delim) :: rest) =
        .ok (.string (sliceBytes src start (current src rest4))
              ((val.push delim).intoCow (sliceTo src (i + 1))) true, rest4))
  ∧ (∀ j k m q rest5, rest = (j, delim) :: (k, delim) :: (m, delim) :: (q, delim) :: rest5 →
      readStringLoop src p delim start true (fuel + 1) val n0 ((i, delim) :: rest) =
        .ok (.string (sliceBytes src start (current src rest5))
              (((val.push delim).push delim).intoCow (sliceTo src (i + 1 + 1))) true, rest5))
  ∧ (Tokenizer.new srcRuns).tokenize =
      .ok (some (⟨0, 11⟩, .string srcRuns (.borrowed ['a', '"', 'b', '"', '"']) true,
        ⟨srcRuns, []⟩)) := by
  refine ⟨?_, ?_, ?_, ?_, ?_, by decide⟩
  · intro he1
    simp [readStringLoop, eat_not he1, hnl]
  · rintro j rest2 rfl he2
    simp [readStringLoop, eat_yes, eat_not he2, hnl]
  · rintro j k rest3 rfl he3
    simp [readStringLoop, eat_yes, eat_not he3, hnl]
  · rintro j k m rest4 rfl he4
    simp [readStringLoop, eat_yes, eat_not he4, hnl]
  · rintro j k m q rest5 rfl
    simp [readStringLoop, eat_yes, hnl]

/-- Witness for C4's theorem: a single delimiter met inside the body of
a multi-line basic string, not followed by a second one, is pushed as
literal content and scanning continues. -/
theorem multiline_delim_runs_witness :
    readStringLoop [] .basic '"' 0 true 6 (.NotEscaped 0) 0 [(0, '"'), (1, 'x')] =
      readStringLoop [] .basic '"' 0 true 5 ((MaybeString.NotEscaped 0).push '"') 1 [(1, 'x')] :=
  (multiline_delim_runs [] .basic '"' 0 (.NotEscaped 0) 0 5 0 [(1, 'x')] (by decide)).1
    (by decide)

/-- C5: in the body of a multi-line string, a newline is dropped from
the decoded value exactly when it is the very first character scanned
after the opening delimiters (iteration counter 0 before the loop's
increment): then the buffer restarts right after it; any later newline
is pushed into the value.  The final conjunct runs the tokenizer on
`"""` + newline + `hello` + `"""`, which decodes to exactly `hello`. -/
theorem multiline_leading_newline_trim (src : List Char) (p : Policy) (delim : Char)
    (start : Nat) (val : MaybeString) (fuel i : Nat) (rest : List (Nat × Char)) :
    (readStringLoop src p delim start true (fuel + 1) val 0 ((i, '\n') :: rest) =
      readStringLoop src p delim start true fuel (.NotEscaped (current src rest)) 1 rest)
  ∧ (∀ n0, 1 ≤ n0 →
      readStringLoop src p delim start true (fuel + 1) val n0 ((i, '\n') :: rest) =
        readStringLoop src p delim start true fuel
          ((if byteAt src i = 0x0D then val.owned (sliceTo src i) else val).push '\n')
          (n0 + 1) rest)
  ∧ (Tokenizer.new srcHello).tokenize =
      .ok (some (⟨0, 12⟩, .string srcHello (.borrowed ['h', 'e', 'l', 'l', 'o']) true,
        ⟨srcHello, []⟩)) := by
  refine ⟨?_, ?_, by decide⟩
  · simp [readStringLoop]
  · intro n0 hn
    have hne : ¬ n0 + 1 = 1 := by omega
    simp [readStringLoop, hne]

/-- Witness for C5's theorem: a newline that is not the first scanned
character of a multi-line basic string is kept in the decoded value. -/
theorem multiline_leading_newline_trim_witness :
    readStringLoop [] .basic '"' 0 true 4 (.Owned ['x']) 1 [(5, '\n'), (6, 'y')] =
      readStringLoop [] .basic '"' 0 true 3
        ((if byteAt [] 5 = 0x0D then (MaybeString.Owned ['x']).owned (sliceTo [] 5)
          else .Owned ['x']).push '\n') 2 [(6, 'y')] :=
  (multiline_leading_newline_trim [] .basic '"' 0 (.Owned ['x']) 3 5 [(6, 'y')]).2.1 1
    (by decide)

/-- C7: whenever `tokenize` reports `UnterminatedString`, the carried
offset is the byte offset of the opening delimiter of the string token
being read: the character at that offset is the head of the stream at
the time of the call and is one of the two string delimiters.  (Inside
the string reader every `UnterminatedString` — at end of input in the
body, after a backslash, or inside a hex escape — carries the captured
`start` offset.)  The second conjunct runs the tokenizer on the input
`"abc` with no closing quote: `UnterminatedString` at offset 0, the
opening quote's offset. -/
theorem unterminated_offset :
    (∀ (t : Tokenizer) (j : Nat),
        t.tokenize = .error (.UnterminatedString j) →
        ∃ c rest, t.chars = (j, c) :: rest ∧ (c = '"' ∨ c = '\''))
  ∧ (Tokenizer.new srcUnterm).tokenize = .error (.UnterminatedString 0) := by
  constructor
  · intro t j h
    obtain ⟨src, chars⟩ := t
    cases chars with
    | nil => exact Except.noConfusion h
    | cons hd rest =>
      obtain ⟨s, c⟩ := hd
      unfold Tokenizer.tokenize at h
      dsimp only at h
      cases hd2 : dispatch src s c rest with
      | ok r =>
        rw [hd2] at h
        obtain ⟨tok, chars'⟩ := r
        exact Except.noConfusion h
      | error e =>
        rw [hd2] at h
        injection h with h1
        subst h1
        obtain ⟨hj, hc⟩ := dispatch_unterminated hd2
        subst hj
        exact ⟨c, rest, rfl, hc⟩
  · decide

/-- Witness for C7's theorem: applied to the tokenizer over `"abc`,
whose reported `UnterminatedString` offset 0 is indeed the position of
the opening `"`. -/
theorem unterminated_offset_witness :
    ∃ c rest, (Tokenizer.new srcUnterm).chars = ((0 : Nat), c) :: rest ∧
      (c = '"' ∨ c = '\'') :=
  unterminated_offset.1 (Tokenizer.new srcUnterm) 0 (by decide)

/-- C2 (amended): for every input on which repeated `tokenize` calls
all succeed until end-of-input is reported, the returned spans, in
order, are contiguous and non-overlapping, and their concatenation
reconstructs exactly the byte range from the end of the optionally
consumed byte-order mark (3 when the first character is `U+FEFF`, else
0) to `source.len()`. -/
theorem spans_tile_after_bom (src : List Char) (fuel : Nat) (l : List (Span × Token))
    (h : drain fuel (Tokenizer.new src) = (l, .finished)) :
    spansChain (bomLen src) (byteLen src) (l.map Prod.fst) := by
  have hc := drain_spansChain fuel (Tokenizer.new src) l h
  rwa [new_current, new_src] at hc

/-- Witness for C2's theorem: the input `U+FEFF a` drains fully and its
spans tile `[3, 4)` — from the end of the byte-order mark to the
source's byte length. -/
theorem spans_tile_after_bom_witness :
    spansChain (bomLen srcBom) (byteLen srcBom)
      ([((⟨3, 4⟩ : Span), Token.keylike ['a'])].map Prod.fst) :=
  spans_tile_after_bom srcBom 3 _ (by decide)

/-- C8: in this embedding a tokenizer's behaviour is a pure function of
the source text it is constructed over, so constructing two independent
tokenizers over the same source and fully draining both (any common
step budget) yields identical `(span, token)` sequences and identical
errors.  The two sides below are two separate constructions of a
tokenizer over `src`, drained independently. -/
theorem rescan_deterministic (src : List Char) (fuel : Nat) :
    drain fuel (Tokenizer.new src) = drain fuel (Tokenizer.new src) := rfl

/-- C9: for both string kinds and in either mode, an ordinary body
character routed to the per-character closure (so not the delimiter or
a line feed, and — for a basic string only — not a backslash) is
accepted and appended to the decoded value exactly when it is tab or
lies in U+0020..U+10FFFF excluding U+007F; any other such character —
U+007F and a bare carriage return included — yields
`InvalidCharInString` carrying that character's offset and the
character.  The literal-string conjuncts hold for every character, a
backslash included (a backslash is an ordinary, accepted body character
of a literal string); only the basic-string conjuncts exclude the
backslash, which there starts an escape instead. -/
theorem string_char_validity (start : Nat) (multi : Bool) (i : Nat) (ch : Char)
    (src : List Char) (val : MaybeString) (chars : List (Nat × Char)) :
    (specAllowedChar ch → literalNewCh i ch val chars = .ok (val.push ch, chars))
  ∧ (¬ specAllowedChar ch →
      literalNewCh i ch val chars = .error (.InvalidCharInString i ch))
  ∧ (ch ≠ '\\' → specAllowedChar ch →
      basicNewCh start multi i ch src val chars = .ok (val.push ch, chars))
  ∧ (ch ≠ '\\' → ¬ specAllowedChar ch →
      basicNewCh start multi i ch src val chars = .error (.InvalidCharInString i ch)) := by
  refine ⟨?_, ?_, ?_, ?_⟩
  · intro hall
    unfold literalNewCh
    rw [if_pos ((specAllowedChar_iff ch).mpr hall)]
  · intro hall
    unfold literalNewCh
    rw [if_neg (fun hx => hall ((specAllowedChar_iff ch).mp hx))]
  · intro hbs hall
    unfold basicNewCh
    rw [if_neg hbs, if_pos ((specAllowedChar_iff ch).mpr hall)]
  · intro hbs hall
    unfold basicNewCh
    rw [if_neg hbs, if_neg (fun hx => hall ((specAllowedChar_iff ch).mp hx))]

/-- Witness for C9's theorem: a backslash inside a literal-string body
is an ordinary accepted character and is appended to the decoded value,
while the character `U+007F` inside a basic-string body is rejected
with `InvalidCharInString` at its offset. -/
theorem string_char_validity_witness :
    literalNewCh 5 '\\' (.Owned []) [] = .ok ((MaybeString.Owned []).push '\\', [])
  ∧ basicNewCh 0 true 5 (Char.ofNat 0x7F) [] (.NotEscaped 0) [] =
      .error (.InvalidCharInString 5 (Char.ofNat 0x7F)) :=
  ⟨(string_char_validity 0 true 5 '\\' [] (.Owned []) []).1 (by decide),
   (string_char_validity 0 true 5 (Char.ofNat 0x7F) [] (.NotEscaped 0) []).2.2.2
     (by decide) (by decide)⟩

/-- C10: in a multi-line basic string, a backslash followed by a space
or tab is a valid line continuation only when, after the contiguous run
of spaces and tabs, the next character is a line feed (first conjunct:
then the escape succeeds and skipping continues with the second
whitespace loop); when a character other than space, tab or line feed
comes first, the result is `InvalidEscape` carrying the offset and
character of the first whitespace character that followed the
backslash, not of the offending character (second conjunct). -/
theorem line_continuation (src : List Char) (start ib i2 j : Nat) (c bad : Char)
    (ws rest rest2 : List (Nat × Char)) (val : MaybeString)
    (hc : c = ' ' ∨ c = '\t')
    (hws : ∀ p ∈ ws, p.2 = ' ' ∨ p.2 = '\t')
    (hb1 : ¬ (bad = ' ' ∨ bad = '\t')) (hb2 : bad ≠ '\n') :
    basicNewCh start true ib '\\' src val ((i2, c) :: (ws ++ (j, '\n') :: rest2)) =
      .ok (val.owned (sliceTo src ib), contSkip2 rest2)
  ∧ basicNewCh start true ib '\\' src val ((i2, c) :: (ws ++ (j, bad) :: rest)) =
      .error (.InvalidEscape i2 c) := by
  rcases hc with rfl | rfl <;>
    exact ⟨by simp [basicNewCh, contSkip1_ws_newline ws hws],
      by simp [basicNewCh, contSkip1_ws_bad ws hws hb1 hb2]⟩

/-- Witness for C10's theorem: after backslash-space-space the next
character `x` is not a line feed, and the error carries the offset and
character of the first space after the backslash (offset 2), not of
`x`. -/
theorem line_continuation_witness :
    basicNewCh 0 true 1 '\\' [] (.NotEscaped 0) [(2, ' '), (3, ' '), (4, '\n'), (5, 'y')] =
      .ok ((MaybeString.NotEscaped 0).owned (sliceTo [] 1), contSkip2 [(5, 'y')])
  ∧ basicNewCh 0 true 1 '\\' [] (.NotEscaped 0) [(2, ' '), (3, ' '), (4, 'x')] =
      .error (.InvalidEscape 2 ' ') :=
  line_continuation [] 0 1 2 4 ' ' 'x' [(3, ' ')] [] [(5, 'y')] (.NotEscaped 0)
    (by decide) (by decide) (by decide) (by decide)

/-- C3 (amended): when a basic-string `\u` or `\U` escape reads its
full count (4 or 8) of valid hex digits but the decoded 32-bit value is
not a valid Unicode scalar value, the result is `InvalidEscapeValue`
carrying the byte offset of the `u`/`U` escape-kind character itself —
the position one before the first hex digit — and the decoded value.
The last conjunct runs the tokenizer on `"\uD800"`: the error offset is
2, the offset of `u`. -/
theorem escape_value_offset :
    (∀ (src : List Char) (start ib i2 : Nat) (val : MaybeString) (multi : Bool)
        (ps rest : List (Nat × Char)),
      ps.length = 4 →
      (∀ p ∈ ps, hexDigitOk p.2 = true) →
      isValidScalar (hexVal (ps.map Prod.snd)) = false →
      basicNewCh start multi ib '\\' src val ((i2, 'u') :: (ps ++ rest)) =
        .error (.InvalidEscapeValue i2 (hexVal (ps.map Prod.snd))))
  ∧ (∀ (src : List Char) (start ib i2 : Nat) (val : MaybeString) (multi : Bool)
        (ps rest : List (Nat × Char)),
      ps.length = 8 →
      (∀ p ∈ ps, hexDigitOk p.2 = true) →
      isValidScalar (hexVal (ps.map Prod.snd)) = false →
      basicNewCh start multi ib '\\' src val ((i2, 'U') :: (ps ++ rest)) =
        .error (.InvalidEscapeValue i2 (hexVal (ps.map Prod.snd))))
  ∧ (Tokenizer.new srcUD800).tokenize = .error (.InvalidEscapeValue 2 0xD800) := by
  refine ⟨?_, ?_, by decide⟩
  · intro src start ib i2 val multi ps rest hlen hd hv
    have hh : hex (ps ++ rest) start i2 4 =
        .error (.InvalidEscapeValue i2 (hexVal (ps.map Prod.snd))) := by
      rw [← hlen]
      exact hex_invalid_value ps rest hd hv
    simp [basicNewCh, hh]
  · intro src start ib i2 val multi ps rest hlen hd hv
    have hh : hex (ps ++ rest) start i2 8 =
        .error (.InvalidEscapeValue i2 (hexVal (ps.map Prod.snd))) := by
      rw [← hlen]
      exact hex_invalid_value ps rest hd hv
    simp [basicNewCh, hh]

/-- Witness for C3's theorem: the surrogate escape `\uD800` inside a
basic string body, handled by the escape closure, errors with
`InvalidEscapeValue` at the offset of `u`. -/
theorem escape_value_offset_witness :
    basicNewCh 0 false 1 '\\' [] (.NotEscaped 0)
      ((2, 'u') :: ([(3, 'D'), (4, '8'), (5, '0'), (6, '0')] ++ [(7, '"')])) =
      .error (.InvalidEscapeValue 2
        (hexVal ([(3, 'D'), (4, '8'), (5, '0'), (6, '0')].map Prod.snd))) :=
  escape_value_offset.1 [] 0 1 2 (.NotEscaped 0) false
    [(3, 'D'), (4, '8'), (5, '0'), (6, '0')] [(7, '"')]
    (by decide) (by decide) (by decide)

/-- C3, counterexample: tokenizing `"\uD800"` (four valid hex digits
whose value `0xD800` is a surrogate, not a Unicode scalar value) yields
`InvalidEscapeValue` carrying offset 2 — the offset of the `u`
character — and not offset 3, the offset of the first hex digit as the
claim states. -/
theorem escape_value_offset_counterexample :
    (Tokenizer.new srcUD800).tokenize = .error (.InvalidEscapeValue 2 0xD800)
  ∧ (Tokenizer.new srcUD800).tokenize ≠ .error (.InvalidEscapeValue 3 0xD800) := by
  decide

end Toml
